import Mathlib

set_option autoImplicit false

/-!
Verification development for the AgentOS workbench streaming chunk protocol
and session-state reducer.

The wire-protocol type surface is embedded from `src/types/agentos.ts`
(enum `AgentOSChunkType`, the chunk interfaces, and the `AgentOSResponse`
union).  The session reducer, tool-call correlator, workflow/agency
projector and retrieval-evidence accumulator are not present in the
repository's source tree (only their type surface and UI consumers are),
so those operations are modelled from the specification, as marked on each
definition.  TypeScript `unknown` values are modelled by the opaque
JSON-like type `Prim`; `Record<string, unknown>` by association lists.
-/

namespace AgentOS

/-- Opaque JSON-like value standing in for TypeScript `unknown`. -/
inductive Prim where
  | vnull
  | vbool (b : Bool)
  | vint (n : Int)
  | vstr (s : String)
deriving DecidableEq, Repr

/-- Model of `Record<string, unknown>`: an association list from keys to values. -/
abbrev Rec := List (String × Prim)

/-- Embedded from `src/types/agentos.ts` enum `AgentOSChunkType` (twelve members). -/
inductive AgentOSChunkType where
  | TEXT_DELTA
  | SYSTEM_PROGRESS
  | TOOL_CALL_REQUEST
  | TOOL_RESULT_EMISSION
  | UI_COMMAND
  | FINAL_RESPONSE
  | ERROR
  | METADATA_UPDATE
  | WORKFLOW_UPDATE
  | AGENCY_UPDATE
  | RAG_RETRIEVAL
  | RAG_INGESTION
deriving DecidableEq, Repr, Fintype

/-- Embedded from `src/types/agentos.ts`: the verbatim string value of each
`AgentOSChunkType` enum member. -/
def wireString : AgentOSChunkType → String
  | .TEXT_DELTA => "text_delta"
  | .SYSTEM_PROGRESS => "system_progress"
  | .TOOL_CALL_REQUEST => "tool_call_request"
  | .TOOL_RESULT_EMISSION => "tool_result_emission"
  | .UI_COMMAND => "ui_command"
  | .FINAL_RESPONSE => "final_response"
  | .ERROR => "error"
  | .METADATA_UPDATE => "metadata_update"
  | .WORKFLOW_UPDATE => "workflow_update"
  | .AGENCY_UPDATE => "agency_update"
  | .RAG_RETRIEVAL => "rag_retrieval"
  | .RAG_INGESTION => "rag_ingestion"

/-- Embedded from `src/types/agentos.ts` interface `AgentOSBaseChunk`: the
common envelope fields carried by every chunk (the `type` discriminant is
carried by `ChunkBody` below). -/
structure Envelope where
  streamId : String
  gmiInstanceId : String
  personaId : String
  isFinal : Bool
  timestamp : String
  metadata : Option Rec := none
deriving DecidableEq, Repr

/-- Embedded from `src/types/agentos.ts` interface `ToolCallRequestShape`. -/
structure ToolCallRequestShape where
  id : String
  name : String
  arguments : Rec
deriving DecidableEq, Repr

/-- Embedded from `src/types/agentos.ts`: the `usage` field of
`AgentOSFinalResponseChunk`. -/
structure Usage where
  promptTokens : Nat
  completionTokens : Nat
  totalTokens : Nat
deriving DecidableEq, Repr

/-- Embedded from `src/types/agentos.ts` interface `AgentOSWorkflowTaskSnapshot`
(the nested `error` object is flattened into its three fields). -/
structure WorkflowTaskSnapshot where
  status : String
  assignedRoleId : Option String := none
  assignedExecutorId : Option String := none
  startedAt : Option String := none
  completedAt : Option String := none
  output : Option Prim := none
  errMessage : Option String := none
  errCode : Option String := none
  errDetails : Option Prim := none
  metadata : Option Rec := none
deriving DecidableEq, Repr

/-- Embedded from `src/types/agentos.ts`: the `workflow` payload of
`AgentOSWorkflowUpdateChunk`. -/
structure WorkflowPayload where
  workflowId : String
  definitionId : String
  definitionVersion : Option String := none
  status : String
  createdAt : Option String := none
  updatedAt : String
  conversationId : Option String := none
  metadata : Option Rec := none
  tasks : Option (List (String × WorkflowTaskSnapshot)) := none
deriving DecidableEq, Repr

/-- Embedded from `src/types/agentos.ts`: one element of the `seats` roster of
`AgentOSAgencyUpdateChunk`. -/
structure AgencySeat where
  roleId : String
  gmiInstanceId : String
  personaId : String
  metadata : Option Rec := none
deriving DecidableEq, Repr

/-- Embedded from `src/types/agentos.ts`: the `agency` payload of
`AgentOSAgencyUpdateChunk`. -/
structure AgencyPayload where
  agencyId : String
  workflowId : String
  conversationId : Option String := none
  metadata : Option Rec := none
  seats : List AgencySeat
deriving DecidableEq, Repr

/-- Embedded from `src/types/agentos.ts`: one element of the `retrievedChunks`
field of `AgentOSRagRetrievalChunk` (`score` is a TypeScript `number`,
modelled as a rational). -/
structure RetrievedChunk where
  chunkId : String
  documentId : String
  content : String
  score : Rat
  metadata : Option Rec := none
deriving DecidableEq, Repr

/-- Embedded from `src/types/agentos.ts`: the payload fields of
`AgentOSRagRetrievalChunk`. -/
structure RagRetrievalPayload where
  query : String
  retrievedChunks : List RetrievedChunk
  totalResults : Nat
  processingTimeMs : Option Nat := none
deriving DecidableEq, Repr

/-- Embedded from `src/types/agentos.ts`: the closed three-valued `status`
union of `AgentOSRagIngestionChunk` (literal types `success`, `partial`,
`failed`). -/
inductive IngestStatus where
  | success
  | partialStatus
  | failed
deriving DecidableEq, Repr, Fintype

/-- Embedded from `src/types/agentos.ts`: the verbatim literal string of each
ingestion status value. -/
def ingestStatusWire : IngestStatus → String
  | .success => "success"
  | .partialStatus => "partial"
  | .failed => "failed"

/-- Embedded from `src/types/agentos.ts`: the payload fields of
`AgentOSRagIngestionChunk`. -/
structure RagIngestionPayload where
  documentId : String
  collectionId : String
  status : IngestStatus
  chunksCreated : Option Nat := none
  errorMessage : Option String := none
  processingTimeMs : Option Nat := none
deriving DecidableEq, Repr

/-- Variant-specific payload of a chunk, discriminated like the `type` field.
The ten payloads with a dedicated interface are embedded from
`src/types/agentos.ts`; `uiCommand` and `error` have no dedicated interface
in the source and are modelled from the spec: UI_COMMAND carries an opaque
payload passed through untouched, ERROR carries an error message. -/
inductive ChunkBody where
  | textDelta (textDelta : String)
  | systemProgress (message : String) (progressPercentage : Option Rat) (statusCode : Option String)
  | toolCallRequest (toolCalls : List ToolCallRequestShape) (rationale : Option String)
  | toolResultEmission (toolCallId : String) (toolName : String) (toolResult : Prim)
      (isSuccess : Bool) (errorMessage : Option String)
  | uiCommand (payload : Prim)
  | finalResponse (finalResponseText : Option String) (usage : Option Usage)
  | error (message : String)
  | metadataUpdate (updates : Rec)
  | workflowUpdate (workflow : WorkflowPayload)
  | agencyUpdate (agency : AgencyPayload)
  | ragRetrieval (payload : RagRetrievalPayload)
  | ragIngestion (payload : RagIngestionPayload)
deriving DecidableEq, Repr

/-- A decoded chunk: the common envelope plus the variant payload. -/
structure Chunk where
  env : Envelope
  body : ChunkBody
deriving DecidableEq, Repr

/-- The `type` discriminant determined by a chunk's variant payload. -/
def chunkTypeOf (c : Chunk) : AgentOSChunkType :=
  match c.body with
  | .textDelta _ => .TEXT_DELTA
  | .systemProgress _ _ _ => .SYSTEM_PROGRESS
  | .toolCallRequest _ _ => .TOOL_CALL_REQUEST
  | .toolResultEmission _ _ _ _ _ => .TOOL_RESULT_EMISSION
  | .uiCommand _ => .UI_COMMAND
  | .finalResponse _ _ => .FINAL_RESPONSE
  | .error _ => .ERROR
  | .metadataUpdate _ => .METADATA_UPDATE
  | .workflowUpdate _ => .WORKFLOW_UPDATE
  | .agencyUpdate _ => .AGENCY_UPDATE
  | .ragRetrieval _ => .RAG_RETRIEVAL
  | .ragIngestion _ => .RAG_INGESTION

/-- Embedded from `src/types/agentos.ts`: the members of the `AgentOSResponse`
union, one tag per union alternative.  The union lists the undiscriminated
base interface plus ten discriminated interfaces; it has no dedicated member
for UI_COMMAND or ERROR. -/
inductive ResponseVariant where
  | base
  | textDelta
  | systemProgress
  | toolCallRequest
  | toolResultEmission
  | finalResponse
  | metadataUpdate
  | workflowUpdate
  | agencyUpdate
  | ragRetrieval
  | ragIngestion
deriving DecidableEq, Repr, Fintype

/-- Embedded from `src/types/agentos.ts`: the fixed `type` discriminant each
`AgentOSResponse` union member declares (`AgentOSBaseChunk` declares the
whole enum as its `type`, so it has no fixed discriminant). -/
def fixedDiscriminant : ResponseVariant → Option AgentOSChunkType
  | .base => none
  | .textDelta => some .TEXT_DELTA
  | .systemProgress => some .SYSTEM_PROGRESS
  | .toolCallRequest => some .TOOL_CALL_REQUEST
  | .toolResultEmission => some .TOOL_RESULT_EMISSION
  | .finalResponse => some .FINAL_RESPONSE
  | .metadataUpdate => some .METADATA_UPDATE
  | .workflowUpdate => some .WORKFLOW_UPDATE
  | .agencyUpdate => some .AGENCY_UPDATE
  | .ragRetrieval => some .RAG_RETRIEVAL
  | .ragIngestion => some .RAG_INGESTION

/-- Modelled from the spec: the session status state machine of §3/§4.5
(`idle → streaming → completed or errored`). -/
inductive SessionStatus where
  | idle
  | streaming
  | completed
  | errored
deriving DecidableEq, Repr

/-- Modelled from the spec: the ToolCall lifecycle states of §3/§4.2
(REQUESTED → SUCCEEDED or FAILED; a request never resolved by stream end is
marked Incomplete). -/
inductive ToolCallState where
  | requested
  | succeeded
  | failed
  | incomplete
deriving DecidableEq, Repr

/-- Modelled from the spec: a ToolCall lifecycle entity keyed by its id (§3),
holding the stored result or error message once resolved. -/
structure ToolCall where
  id : String
  name : String
  arguments : Rec
  state : ToolCallState
  toolResult : Option Prim := none
  errorMessage : Option String := none
deriving DecidableEq, Repr

/-- Modelled from the spec: the anomaly/diagnostics taxonomy of §7. -/
inductive Anomaly where
  | duplicateToolCallId (toolCallId : String)
  | orphanToolResult (toolCallId : String)
  | incompleteToolCall (toolCallId : String)
  | streamError (message : String)
deriving DecidableEq, Repr

/-- Modelled from the spec: the per-workflow projection of §4.3, one task map
per `workflowId` holding the latest full-state snapshot of each task. -/
structure WorkflowProjection where
  workflowId : String
  status : String
  updatedAt : String
  tasks : List (String × WorkflowTaskSnapshot)
deriving DecidableEq, Repr

/-- Modelled from the spec: the session aggregate of §3 that the Session
Reducer folds the chunk stream into — status, live delta buffer, finalized
transcript, per-stream tool calls, surfaced tool results, UI-command
passthrough, session metadata, workflow/agency projections, retrieval
evidence and ingestion logs, and the per-session diagnostics list. -/
structure Session where
  status : SessionStatus
  buffer : String
  transcript : String
  progress : Option String
  toolCalls : List ToolCall
  surfacedResults : List Prim
  uiCommands : List Prim
  sessionMetadata : Rec
  workflows : List (String × WorkflowProjection)
  agencies : List (String × List AgencySeat)
  evidence : List RagRetrievalPayload
  ingestionLog : List RagIngestionPayload
  diagnostics : List Anomaly
deriving DecidableEq, Repr

/-- Insert-or-replace in an association list, keeping the original position of
an existing key. -/
def setAssoc {α : Type} (k : String) (v : α) : List (String × α) → List (String × α)
  | [] => [(k, v)]
  | (k', v') :: rest => if k' = k then (k, v) :: rest else (k', v') :: setAssoc k v rest

/-- Lookup in an association list. -/
def lookupAssoc {α : Type} (k : String) : List (String × α) → Option α
  | [] => none
  | (k', v') :: rest => if k' = k then some v' else lookupAssoc k rest

/-- Modelled from the spec: `Object.assign`-style shallow merge of §4.5 —
every update key overwrites the base. -/
def mergeRec (base updates : Rec) : Rec :=
  updates.foldl (fun acc kv => setAssoc kv.1 kv.2 acc) base

/-- Find the tool call with the given id in the correlator state. -/
def findToolCall (id : String) : List ToolCall → Option ToolCall
  | [] => none
  | tc :: rest => if tc.id = id then some tc else findToolCall id rest

/-- Replace the tool call with the given id by applying `f` to it. -/
def updateToolCall (id : String) (f : ToolCall → ToolCall) : List ToolCall → List ToolCall
  | [] => []
  | tc :: rest => if tc.id = id then f tc :: rest else tc :: updateToolCall id f rest

/-- Modelled from the spec: §4.2 `onResult` resolution — per `isSuccess` the
call transitions to SUCCEEDED storing `toolResult`, or to FAILED storing
`errorMessage`. -/
def resolveResult (isSucc : Bool) (res : Prim) (errMsg : Option String) (tc : ToolCall) : ToolCall :=
  if isSucc then { tc with state := .succeeded, toolResult := some res }
  else { tc with state := .failed, errorMessage := errMsg }

/-- Modelled from the spec: §4.2 `onRequest` — each entry of `toolCalls` is
inserted in REQUESTED state; a duplicate id within the same stream is
rejected and recorded as a `DuplicateToolCallId` anomaly. -/
def insertRequests (s : Session) : List ToolCallRequestShape → Session
  | [] => s
  | shape :: rest =>
      match findToolCall shape.id s.toolCalls with
      | some _ =>
          insertRequests
            { s with diagnostics := s.diagnostics ++ [Anomaly.duplicateToolCallId shape.id] } rest
      | none =>
          insertRequests
            { s with toolCalls := s.toolCalls ++
                [{ id := shape.id, name := shape.name, arguments := shape.arguments,
                   state := ToolCallState.requested }] } rest

/-- Modelled from the spec: §4.3 `applyWorkflowUpdate` — each named task's
snapshot is replaced wholesale by the incoming one (full-state, not patch);
the workflow-level fields are likewise replaced by the chunk's. -/
def applyWorkflowUpdate (s : Session) (w : WorkflowPayload) : Session :=
  let prior : List (String × WorkflowTaskSnapshot) :=
    match lookupAssoc w.workflowId s.workflows with
    | some proj => proj.tasks
    | none => []
  let tasks' := (w.tasks.getD []).foldl (fun acc kv => setAssoc kv.1 kv.2 acc) prior
  let proj' : WorkflowProjection :=
    { workflowId := w.workflowId, status := w.status, updatedAt := w.updatedAt,
      tasks := tasks' }
  { s with workflows := setAssoc w.workflowId proj' s.workflows }

/-- Modelled from the spec: payload effect of one non-terminal chunk variant
on the aggregate, per the dispatch table of §4.5 (the `error` and
`finalResponse` cases are handled by the reducer itself and are identities
here). -/
def effect (s : Session) : ChunkBody → Session
  | .textDelta d => { s with buffer := s.buffer ++ d }
  | .systemProgress msg _ _ => { s with progress := some msg }
  | .toolCallRequest shapes _ => insertRequests s shapes
  | .toolResultEmission id _ res isSucc errMsg =>
      (match findToolCall id s.toolCalls with
       | some tc =>
          if tc.state = ToolCallState.requested then
            { s with toolCalls := updateToolCall id (resolveResult isSucc res errMsg) s.toolCalls,
                     surfacedResults := s.surfacedResults ++ [res] }
          else { s with surfacedResults := s.surfacedResults ++ [res] }
       | none =>
          { s with diagnostics := s.diagnostics ++ [Anomaly.orphanToolResult id],
                   surfacedResults := s.surfacedResults ++ [res] })
  | .uiCommand p => { s with uiCommands := s.uiCommands ++ [p] }
  | .metadataUpdate updates => { s with sessionMetadata := mergeRec s.sessionMetadata updates }
  | .workflowUpdate w => applyWorkflowUpdate s w
  | .agencyUpdate a => { s with agencies := setAssoc a.agencyId a.seats s.agencies }
  | .ragRetrieval p => { s with evidence := s.evidence ++ [p] }
  | .ragIngestion p => { s with ingestionLog := s.ingestionLog ++ [p] }
  | .finalResponse _ _ => s
  | .error _ => s

/-- Whether a session status is terminal (completed or errored). -/
def terminalStatus : SessionStatus → Bool
  | .completed => true
  | .errored => true
  | _ => false

/-- Modelled from the spec: §4.2 `finalize` — at stream end every ToolCall
still REQUESTED is marked Incomplete and surfaced in the diagnostics list. -/
def finalizeTools (s : Session) : Session :=
  { s with
    toolCalls := s.toolCalls.map (fun tc =>
      if tc.state = ToolCallState.requested then { tc with state := .incomplete } else tc),
    diagnostics := s.diagnostics ++
      (s.toolCalls.filter (fun tc => tc.state = ToolCallState.requested)).map
        (fun tc => Anomaly.incompleteToolCall tc.id) }

/-- Modelled from the spec: the ERROR transition of §4.5 — the session moves
to `errored`, the error message is recorded in the diagnostics list, the
transcript so far is retained, and stream-end bookkeeping runs. -/
def errorStep (s : Session) (msg : String) : Session :=
  finalizeTools { s with status := .errored, transcript := s.buffer,
                         diagnostics := s.diagnostics ++ [Anomaly.streamError msg] }

/-- Modelled from the spec: the completion transition of §4.5 — the session
moves to `completed`, the final transcript prefers an explicit
`finalResponseText` over the accumulated delta buffer, and stream-end
bookkeeping runs. -/
def completeStep (s : Session) (finalText : Option String) : Session :=
  finalizeTools { s with status := .completed, transcript := finalText.getD s.buffer }

/-- Whether a chunk body is one of the ten non-terminal variants. -/
def plainBody : ChunkBody → Bool
  | .error _ => false
  | .finalResponse _ _ => false
  | _ => true

/-- Modelled from the spec: the Session Reducer of §4.5 applied to one decoded
chunk.  Once the stream has reached a terminal status no further chunk is
applied; an ERROR chunk takes the error transition; a FINAL_RESPONSE chunk
takes the completion transition with its explicit final text; any other
chunk applies its payload effect, followed by the completion transition when
it carries `isFinal = true`. -/
def applyChunk (s : Session) (c : Chunk) : Session :=
  if terminalStatus s.status then s
  else
    match c.body with
    | .error msg => errorStep s msg
    | .finalResponse txt _ => completeStep s txt
    | b =>
        let s' := effect s b
        if c.env.isFinal then completeStep s' none else s'

/-- Modelled from the spec: folding one stream's chunks into the aggregate in
arrival order (§4.5/§5). -/
def applyStream (s : Session) (cs : List Chunk) : Session :=
  cs.foldl applyChunk s

/-- Modelled from the spec: a fresh streaming session right after a request
submission moved it `idle → streaming` with empty per-stream state. -/
def freshSession : Session :=
  { status := .streaming, buffer := "", transcript := "", progress := none,
    toolCalls := [], surfacedResults := [], uiCommands := [], sessionMetadata := [],
    workflows := [], agencies := [], evidence := [], ingestionLog := [],
    diagnostics := [] }

/-- Modelled from the spec: §4.5 — after a terminal stream, a new request
submission moves the session back to `streaming` with a fresh per-stream
correlator state and delta buffer, keeping the session-level history. -/
def startStream (s : Session) : Session :=
  { s with status := .streaming, buffer := "", toolCalls := [], progress := none }

/-- Whether a chunk terminates the stream: it is of type ERROR or
FINAL_RESPONSE, or carries `isFinal = true`. -/
def terminalChunk (c : Chunk) : Bool :=
  c.env.isFinal || !plainBody c.body

/-- Whether a chunk is of type ERROR. -/
def isErrorChunk (c : Chunk) : Bool :=
  match c.body with
  | .error _ => true
  | _ => false

/-- Lookup of one workflow task's latest snapshot in the aggregate. -/
def lookupTask (s : Session) (wid tid : String) : Option WorkflowTaskSnapshot :=
  match lookupAssoc wid s.workflows with
  | some proj => lookupAssoc tid proj.tasks
  | none => none

/-- Modelled from the spec: the reducer's `(priorState, chunk) → nextState`
transition rules of §4.5 as a relation, used to state that the mapping is
deterministic.  One rule per dispatch outcome: terminal states absorb,
ERROR takes the error transition, FINAL_RESPONSE completes with its explicit
final text, and a plain chunk applies its payload effect, completing
afterwards when it carries `isFinal = true`. -/
inductive Step : Session → Chunk → Session → Prop where
  | terminal (s : Session) (c : Chunk) :
      terminalStatus s.status = true → Step s c s
  | streamErr (s : Session) (c : Chunk) (msg : String) :
      terminalStatus s.status = false → c.body = ChunkBody.error msg →
      Step s c (errorStep s msg)
  | finalResp (s : Session) (c : Chunk) (txt : Option String) (u : Option Usage) :
      terminalStatus s.status = false → c.body = ChunkBody.finalResponse txt u →
      Step s c (completeStep s txt)
  | payloadFinal (s : Session) (c : Chunk) :
      terminalStatus s.status = false → plainBody c.body = true → c.env.isFinal = true →
      Step s c (completeStep (effect s c.body) none)
  | payloadMid (s : Session) (c : Chunk) :
      terminalStatus s.status = false → plainBody c.body = true → c.env.isFinal = false →
      Step s c (effect s c.body)

/-- Reflexive-transitive application of `Step` along a chunk sequence. -/
inductive Steps : Session → List Chunk → Session → Prop where
  | nil (s : Session) : Steps s [] s
  | cons {s s' s'' : Session} {c : Chunk} {cs : List Chunk} :
      Step s c s' → Steps s' cs s'' → Steps s (c :: cs) s''

/-- Embedded from `src/components/RequestComposer.tsx`: the composer's
observable state — its local `isStreaming` flag plus the active session's
status read from the session store. -/
structure ComposerState where
  isStreaming : Bool
  sessionStatus : SessionStatus
deriving DecidableEq, Repr

/-- Events driving the composer: a submission attempt, the active session's
stream reaching a terminal outcome, and the terminal-to-idle reset. -/
inductive ComposerEvent where
  | submit
  | streamEnd (outcome : SessionStatus)
  | resetIdle
deriving DecidableEq, Repr

/-- Embedded from `src/components/RequestComposer.tsx`: initial component
state — `useState(false)` for `isStreaming`, no stream running. -/
def composerInit : ComposerState :=
  { isStreaming := false, sessionStatus := SessionStatus.idle }

/-- Embedded from `src/components/RequestComposer.tsx`, with the session
store's status dynamics modelled from the spec (§4.5/§5).  `submit`: the
form's fieldset and submit button are disabled and the Enter-key handler
returns early while `isStreaming`, so a submission is refused; otherwise
`processSubmission` sets `isStreaming` to `true` and the dispatched request
moves the session to `streaming`.  `streamEnd`: when the stream reaches a
terminal status the `useEffect` observing `activeSession.status !==
"streaming"` resets `isStreaming` to `false`.  `resetIdle`: a terminal
session may return to `idle`. -/
def composerStep (st : ComposerState) : ComposerEvent → ComposerState
  | .submit =>
      if st.isStreaming then st
      else { isStreaming := true, sessionStatus := SessionStatus.streaming }
  | .streamEnd outcome =>
      if st.sessionStatus = SessionStatus.streaming ∧ terminalStatus outcome = true then
        { isStreaming := false, sessionStatus := outcome }
      else st
  | .resetIdle =>
      if terminalStatus st.sessionStatus then { st with sessionStatus := SessionStatus.idle }
      else st

/-- States of the composer-plus-store system reachable from the initial
state. -/
inductive ComposerReachable : ComposerState → Prop where
  | init : ComposerReachable composerInit
  | step {st : ComposerState} (e : ComposerEvent) :
      ComposerReachable st → ComposerReachable (composerStep st e)

/-- A non-final chunk envelope used by the concrete scenarios. -/
def envMid : Envelope :=
  { streamId := "s1", gmiInstanceId := "g1", personaId := "p1", isFinal := false,
    timestamp := "t0" }

/-- A final chunk envelope used by the concrete scenarios. -/
def envFin : Envelope :=
  { streamId := "s1", gmiInstanceId := "g1", personaId := "p1", isFinal := true,
    timestamp := "t1" }

/-- A plain TEXT_DELTA chunk used by the concrete scenarios. -/
def chunkHello : Chunk := { env := envMid, body := ChunkBody.textDelta "Hello" }

/-- A TEXT_DELTA chunk carrying the second delta of the §8 transcript
scenario. -/
def chunkWorld : Chunk := { env := envMid, body := ChunkBody.textDelta " world" }

/-- The FINAL_RESPONSE chunk of the §8 transcript scenario, carrying an
explicit `finalResponseText`. -/
def chunkFinalHello : Chunk :=
  { env := envFin, body := ChunkBody.finalResponse (some "Hello world!") none }

/-- A final chunk with no explicit final text. -/
def chunkFinalPlain : Chunk :=
  { env := envFin, body := ChunkBody.finalResponse none none }

/-- The TOOL_CALL_REQUEST chunk of the §8 error scenario. -/
def chunkReqT1 : Chunk :=
  { env := envMid,
    body := ChunkBody.toolCallRequest [{ id := "t1", name := "search", arguments := [] }] none }

/-- The ERROR chunk of the §8 error scenario. -/
def chunkErrTimeout : Chunk := { env := envMid, body := ChunkBody.error "timeout" }

/-- The session aggregate produced by the §8 error scenario. -/
def errScenario : Session := applyStream freshSession [chunkReqT1, chunkErrTimeout]

/-- A workflow task snapshot whose status is the given string, all optional
fields absent. -/
def wfSnap (st : String) : WorkflowTaskSnapshot := { status := st }

/-- A WORKFLOW_UPDATE chunk carrying a full snapshot of task `t1` of workflow
`w1` with the given task status. -/
def wfChunk (st : String) : Chunk :=
  { env := envMid,
    body := ChunkBody.workflowUpdate
      { workflowId := "w1", definitionId := "d1", status := "running", updatedAt := "u0",
        tasks := some [("t1", wfSnap st)] } }

/-- A TOOL_CALL_REQUEST chunk carrying a single requested call. -/
def reqChunk (e : Envelope) (tid nm : String) (args : Rec) : Chunk :=
  { env := e,
    body := ChunkBody.toolCallRequest [{ id := tid, name := nm, arguments := args }] none }

/-- A TOOL_RESULT_EMISSION chunk. -/
def resChunk (e : Envelope) (tid nm : String) (res : Prim) (b : Bool)
    (errMsg : Option String) : Chunk :=
  { env := e, body := ChunkBody.toolResultEmission tid nm res b errMsg }

/-- A tool call freshly inserted in REQUESTED state by `insertRequests`. -/
def requestedTC (tid nm : String) (args : Rec) : ToolCall :=
  { id := tid, name := nm, arguments := args, state := ToolCallState.requested }

/-- A RAG_INGESTION payload used by the concrete scenarios. -/
def ingPayload : RagIngestionPayload :=
  { documentId := "d1", collectionId := "c1", status := IngestStatus.success }

/-- A RAG_INGESTION chunk used by the concrete scenarios. -/
def ingChunk : Chunk := { env := envMid, body := ChunkBody.ragIngestion ingPayload }

theorem insertRequests_status (s : Session) (shapes : List ToolCallRequestShape) :
    (insertRequests s shapes).status = s.status := by
  induction shapes generalizing s with
  | nil => rfl
  | cons sh rest ih =>
      simp only [insertRequests]
      cases h : findToolCall sh.id s.toolCalls <;> simp [h, ih]

theorem effect_status (s : Session) (b : ChunkBody) : (effect s b).status = s.status := by
  cases b <;> simp only [effect]
  case toolCallRequest shapes r => exact insertRequests_status s shapes
  case toolResultEmission id nm res isSucc errMsg =>
      cases h : findToolCall id s.toolCalls with
      | none => simp
      | some tc => by_cases hst : tc.state = ToolCallState.requested <;> simp [hst]
  case workflowUpdate w => simp [applyWorkflowUpdate]

theorem finalizeTools_status (s : Session) : (finalizeTools s).status = s.status := rfl

theorem terminalChunk_false_parts (c : Chunk) (h : terminalChunk c = false) :
    c.env.isFinal = false ∧ plainBody c.body = true := by
  simp only [terminalChunk, Bool.or_eq_false_iff, Bool.not_eq_false'] at h
  exact h

theorem applyChunk_not_terminal (s : Session) (c : Chunk) (hs : s.status = .streaming) :
    applyChunk s c =
      (match c.body with
       | .error msg => errorStep s msg
       | .finalResponse txt _ => completeStep s txt
       | b => if c.env.isFinal then completeStep (effect s b) none else effect s b) := by
  unfold applyChunk
  rw [hs]
  simp only [terminalStatus, Bool.false_eq_true, if_false]

theorem status_applyChunk_plain (s : Session) (c : Chunk) (hs : s.status = .streaming)
    (hc : terminalChunk c = false) : (applyChunk s c).status = .streaming := by
  obtain ⟨hf, hp⟩ := terminalChunk_false_parts c hc
  rw [applyChunk_not_terminal s c hs]
  cases hb : c.body <;> simp [plainBody, hb] at hp ⊢ <;>
    simp [hf, effect_status, hb, hs]

theorem status_applyChunk_final (s : Session) (c : Chunk) (hs : s.status = .streaming)
    (hf : c.env.isFinal = true) :
    (applyChunk s c).status =
      (if isErrorChunk c then SessionStatus.errored else SessionStatus.completed) := by
  rw [applyChunk_not_terminal s c hs]
  cases hb : c.body <;>
    simp [isErrorChunk, hb, hf, errorStep, completeStep, finalizeTools_status, finalizeTools]

theorem applyChunk_error_eq (s : Session) (c : Chunk) (msg : String)
    (ht : terminalStatus s.status = false) (hb : c.body = ChunkBody.error msg) :
    applyChunk s c = errorStep s msg := by
  unfold applyChunk
  rw [ht, hb]
  rfl

theorem applyChunk_finalResponse_eq (s : Session) (c : Chunk) (txt : Option String)
    (u : Option Usage) (ht : terminalStatus s.status = false)
    (hb : c.body = ChunkBody.finalResponse txt u) :
    applyChunk s c = completeStep s txt := by
  unfold applyChunk
  rw [ht, hb]
  rfl

theorem applyChunk_plain_eq (s : Session) (c : Chunk)
    (ht : terminalStatus s.status = false) (hp : plainBody c.body = true) :
    applyChunk s c =
      (if c.env.isFinal then completeStep (effect s c.body) none else effect s c.body) := by
  unfold applyChunk
  rw [ht]
  cases hb : c.body <;> simp_all [plainBody]

theorem streaming_not_terminal (s : Session) (hs : s.status = .streaming) :
    terminalStatus s.status = false := by
  rw [hs]; rfl

theorem applyStream_cons (s : Session) (c : Chunk) (cs : List Chunk) :
    applyStream s (c :: cs) = applyStream (applyChunk s c) cs := rfl

theorem applyStream_status_aux (init : List Chunk) (lastC : Chunk) :
    ∀ s : Session, s.status = .streaming → (∀ c ∈ init, terminalChunk c = false) →
    lastC.env.isFinal = true →
    (applyStream s (init ++ [lastC])).status =
      (if isErrorChunk lastC then SessionStatus.errored else SessionStatus.completed) := by
  induction init with
  | nil =>
      intro s hs _ hf
      simpa [applyStream] using status_applyChunk_final s lastC hs hf
  | cons c rest ih =>
      intro s hs hall hf
      rw [List.cons_append, applyStream_cons]
      exact ih (applyChunk s c)
        (status_applyChunk_plain s c hs (hall c (by simp)))
        (fun d hd => hall d (by simp [hd])) hf

/-- C1: for every valid chunk sequence — non-terminal chunks followed by a
chunk with `isFinal = true` — folding it into a fresh streaming session
ends in status `completed` when the final chunk is not of type ERROR and in
`errored` when it is; no other terminal status can result. -/
theorem c1_terminal_status (init : List Chunk) (lastC : Chunk)
    (hinit : ∀ c ∈ init, terminalChunk c = false)
    (hfin : lastC.env.isFinal = true) :
    (applyStream freshSession (init ++ [lastC])).status =
      (if isErrorChunk lastC then SessionStatus.errored else SessionStatus.completed) :=
  applyStream_status_aux init lastC freshSession rfl hinit hfin

/-- Witness for C1 at the concrete stream `[TEXT_DELTA "Hello",
FINAL_RESPONSE]`: the resulting status is `completed`. -/
theorem c1_terminal_status_witness :
    (applyStream freshSession [chunkHello, chunkFinalHello]).status =
      SessionStatus.completed := by
  have h := c1_terminal_status [chunkHello] chunkFinalHello (by decide) rfl
  simpa [isErrorChunk, chunkFinalHello] using h

/-- C3: the §8 transcript scenario — the stream `[TEXT_DELTA "Hello",
TEXT_DELTA " world", FINAL_RESPONSE "Hello world!"]` applied to a fresh
streaming session yields transcript `"Hello world!"` and status
`completed`; and in general an explicit `finalResponseText` replaces the
accumulated delta buffer as the final transcript. -/
theorem c3_final_text_wins :
    ((applyStream freshSession [chunkHello, chunkWorld, chunkFinalHello]).transcript =
        "Hello world!" ∧
      (applyStream freshSession [chunkHello, chunkWorld, chunkFinalHello]).status =
        SessionStatus.completed) ∧
    ∀ (s : Session) (txt : String) (u : Option Usage) (e : Envelope),
      s.status = SessionStatus.streaming →
      (applyChunk s { env := e, body := ChunkBody.finalResponse (some txt) u }).transcript =
        txt := by
  constructor
  · exact ⟨rfl, rfl⟩
  · intro s txt u e hs
    rw [applyChunk_finalResponse_eq _ _ (some txt) u (streaming_not_terminal s hs) rfl]
    rfl

/-- Witness for C3's general clause at a concrete session and final text. -/
theorem c3_final_text_wins_witness :
    (applyChunk freshSession chunkFinalHello).transcript = "Hello world!" :=
  c3_final_text_wins.2 freshSession "Hello world!" none envFin rfl

/-- C6: the §8 error scenario — the stream `[TOOL_CALL_REQUEST [t1 search],
ERROR "timeout"]` applied to a fresh streaming session yields status
`errored`, the single tool call `t1` marked Incomplete, and a diagnostics
list containing the error message; after the ERROR every further chunk of
the stream is ignored, while a later stream starts from a fresh streaming
correlator state. -/
theorem c6_error_scenario :
    errScenario.status = SessionStatus.errored ∧
    errScenario.toolCalls =
      [{ id := "t1", name := "search", arguments := [],
         state := ToolCallState.incomplete }] ∧
    Anomaly.streamError "timeout" ∈ errScenario.diagnostics ∧
    (∀ c : Chunk, applyChunk errScenario c = errScenario) ∧
    (startStream errScenario).status = SessionStatus.streaming ∧
    (startStream errScenario).toolCalls = [] := by
  refine ⟨rfl, rfl, by decide, ?_, rfl, rfl⟩
  intro c
  unfold applyChunk
  rw [show terminalStatus errScenario.status = true from rfl]
  rfl

theorem findToolCall_append_absent (id : String) (l : List ToolCall) (tc : ToolCall)
    (h : findToolCall id l = none) :
    findToolCall id (l ++ [tc]) = (if tc.id = id then some tc else none) := by
  induction l with
  | nil => rfl
  | cons a rest ih =>
      rw [List.cons_append]
      simp only [findToolCall] at h ⊢
      by_cases ha : a.id = id
      · rw [if_pos ha] at h
        exact absurd h (by simp)
      · rw [if_neg ha] at h ⊢
        exact ih h

theorem findToolCall_update (id : String) (f : ToolCall → ToolCall)
    (hf : ∀ tc, (f tc).id = tc.id) (l : List ToolCall) :
    findToolCall id (updateToolCall id f l) = (findToolCall id l).map f := by
  induction l with
  | nil => rfl
  | cons a rest ih =>
      by_cases ha : a.id = id
      · simp [updateToolCall, findToolCall, ha, hf]
      · simp [updateToolCall, findToolCall, ha, ih]

theorem resolveResult_id (b : Bool) (res : Prim) (errMsg : Option String) (tc : ToolCall) :
    (resolveResult b res errMsg tc).id = tc.id := by
  cases b <;> simp [resolveResult]

/-- C2: a TOOL_CALL_REQUEST for `tid` followed in the same stream by a
TOOL_RESULT_EMISSION with the same `toolCallId` leaves the tool call
SUCCEEDED exactly when `isSuccess` is true and FAILED otherwise, storing the
result chunk's `toolResult` on success and its `errorMessage` on failure. -/
theorem c2_tool_result_resolution (s : Session) (e1 e2 : Envelope)
    (tid nm nm2 : String) (args : Rec) (res : Prim) (b : Bool) (errMsg : Option String)
    (hs : s.status = SessionStatus.streaming)
    (habsent : findToolCall tid s.toolCalls = none)
    (h1 : e1.isFinal = false) (h2 : e2.isFinal = false) :
    ∃ tc : ToolCall,
      findToolCall tid
        (applyChunk (applyChunk s (reqChunk e1 tid nm args))
          (resChunk e2 tid nm2 res b errMsg)).toolCalls = some tc ∧
      (tc.state = ToolCallState.succeeded ↔ b = true) ∧
      (b = false → tc.state = ToolCallState.failed) ∧
      (b = true → tc.toolResult = some res) ∧
      (b = false → tc.errorMessage = errMsg) := by
  have hreq : applyChunk s (reqChunk e1 tid nm args) =
      { s with toolCalls := s.toolCalls ++ [requestedTC tid nm args] } := by
    rw [applyChunk_plain_eq s (reqChunk e1 tid nm args)
      (streaming_not_terminal s hs) rfl]
    simp [reqChunk, h1, effect, insertRequests, habsent, requestedTC]
  have hfind1 : findToolCall tid (s.toolCalls ++ [requestedTC tid nm args]) =
      some (requestedTC tid nm args) := by
    rw [findToolCall_append_absent tid s.toolCalls _ habsent]
    simp [requestedTC]
  have hres : applyChunk { s with toolCalls := s.toolCalls ++ [requestedTC tid nm args] }
        (resChunk e2 tid nm2 res b errMsg) =
      { s with
        toolCalls := updateToolCall tid (resolveResult b res errMsg)
          (s.toolCalls ++ [requestedTC tid nm args]),
        surfacedResults := s.surfacedResults ++ [res] } := by
    rw [applyChunk_plain_eq
      { s with toolCalls := s.toolCalls ++ [requestedTC tid nm args] }
      (resChunk e2 tid nm2 res b errMsg) (streaming_not_terminal _ hs) rfl]
    simp [resChunk, h2, effect, hfind1,
      show (requestedTC tid nm args).state = ToolCallState.requested from rfl]
  rw [hreq, hres]
  refine ⟨resolveResult b res errMsg (requestedTC tid nm args), ?_, ?_, ?_, ?_, ?_⟩
  · show findToolCall tid (updateToolCall tid (resolveResult b res errMsg)
      (s.toolCalls ++ [requestedTC tid nm args])) = _
    rw [findToolCall_update tid _ (resolveResult_id b res errMsg), hfind1]
    rfl
  · cases b <;> simp [resolveResult, requestedTC]
  · cases b <;> simp [resolveResult, requestedTC]
  · cases b <;> simp [resolveResult, requestedTC]
  · cases b <;> simp [resolveResult, requestedTC]

/-- Witness for C2: a concrete request-then-successful-result pair leaves the
tool call SUCCEEDED with the result payload stored. -/
theorem c2_tool_result_resolution_witness :
    ∃ tc : ToolCall,
      findToolCall "t1"
        (applyChunk (applyChunk freshSession (reqChunk envMid "t1" "search" []))
          (resChunk envMid "t1" "search" (Prim.vstr "ok") true none)).toolCalls =
        some tc ∧
      (tc.state = ToolCallState.succeeded ↔ true = true) ∧
      (true = false → tc.state = ToolCallState.failed) ∧
      (true = true → tc.toolResult = some (Prim.vstr "ok")) ∧
      (true = false → tc.errorMessage = none) :=
  c2_tool_result_resolution freshSession envMid envMid "t1" "search" "search" []
    (Prim.vstr "ok") true none rfl rfl rfl rfl

/-- C5: a TOOL_RESULT_EMISSION whose `toolCallId` matches no open request
records an OrphanToolResult anomaly, still surfaces the result to the
transcript, changes no tool-call state, and leaves the session streaming so
every subsequent chunk of the stream is still applied. -/
theorem c5_orphan_result (s : Session) (e : Envelope) (tid nm : String) (res : Prim)
    (b : Bool) (errMsg : Option String)
    (hs : s.status = SessionStatus.streaming)
    (habsent : findToolCall tid s.toolCalls = none)
    (hf : e.isFinal = false) :
    (applyChunk s (resChunk e tid nm res b errMsg)).diagnostics =
      s.diagnostics ++ [Anomaly.orphanToolResult tid] ∧
    (applyChunk s (resChunk e tid nm res b errMsg)).surfacedResults =
      s.surfacedResults ++ [res] ∧
    (applyChunk s (resChunk e tid nm res b errMsg)).toolCalls = s.toolCalls ∧
    (applyChunk s (resChunk e tid nm res b errMsg)).status = SessionStatus.streaming ∧
    ∀ rest : List Chunk,
      applyStream s (resChunk e tid nm res b errMsg :: rest) =
        applyStream (applyChunk s (resChunk e tid nm res b errMsg)) rest := by
  have heq : applyChunk s (resChunk e tid nm res b errMsg) =
      { s with diagnostics := s.diagnostics ++ [Anomaly.orphanToolResult tid],
               surfacedResults := s.surfacedResults ++ [res] } := by
    rw [applyChunk_plain_eq s (resChunk e tid nm res b errMsg)
      (streaming_not_terminal s hs) rfl]
    simp [resChunk, hf, effect, habsent]
  exact ⟨by rw [heq], by rw [heq], by rw [heq], by rw [heq]; exact hs,
    fun rest => applyStream_cons s _ rest⟩

/-- Witness for C5: a concrete orphan result on a fresh session. -/
theorem c5_orphan_result_witness :
    (applyChunk freshSession
        (resChunk envMid "tX" "search" (Prim.vstr "late") true none)).diagnostics =
      freshSession.diagnostics ++ [Anomaly.orphanToolResult "tX"] :=
  (c5_orphan_result freshSession envMid "tX" "search" (Prim.vstr "late") true none
    rfl rfl rfl).1

theorem lookupAssoc_setAssoc_self {α : Type} (k : String) (v : α)
    (l : List (String × α)) : lookupAssoc k (setAssoc k v l) = some v := by
  induction l with
  | nil => simp [setAssoc, lookupAssoc]
  | cons kv rest ih =>
      by_cases h : kv.1 = k
      · simp [setAssoc, lookupAssoc, h]
      · simp [setAssoc, lookupAssoc, h, ih]

/-- C7: WORKFLOW_UPDATE application is last-write-wins and full-replacement —
any task snapshot named by an update replaces the stored one wholesale,
regardless of the prior state and with no monotonicity check; delivering the
`t1` statuses PENDING, IN_PROGRESS, COMPLETED in order leaves status
COMPLETED, and in reverse order leaves status PENDING. -/
theorem c7_last_write_wins :
    (∀ (s : Session) (e : Envelope) (p : WorkflowPayload) (tid : String)
        (snap : WorkflowTaskSnapshot),
      s.status = SessionStatus.streaming → e.isFinal = false →
      p.tasks = some [(tid, snap)] →
      lookupTask (applyChunk s { env := e, body := ChunkBody.workflowUpdate p })
        p.workflowId tid = some snap) ∧
    lookupTask (applyStream freshSession
        [wfChunk "PENDING", wfChunk "IN_PROGRESS", wfChunk "COMPLETED"]) "w1" "t1" =
      some (wfSnap "COMPLETED") ∧
    lookupTask (applyStream freshSession
        [wfChunk "COMPLETED", wfChunk "IN_PROGRESS", wfChunk "PENDING"]) "w1" "t1" =
      some (wfSnap "PENDING") := by
  refine ⟨?_, rfl, rfl⟩
  intro s e p tid snap hs hf htasks
  rw [applyChunk_plain_eq s { env := e, body := ChunkBody.workflowUpdate p }
    (streaming_not_terminal s hs) rfl]
  simp [hf, effect, applyWorkflowUpdate, htasks, lookupTask, lookupAssoc_setAssoc_self]

/-- Witness for C7's general clause: one concrete update replaces the stored
snapshot of `t1`. -/
theorem c7_last_write_wins_witness :
    lookupTask (applyChunk freshSession (wfChunk "PENDING")) "w1" "t1" =
      some (wfSnap "PENDING") :=
  c7_last_write_wins.1 freshSession envMid
    { workflowId := "w1", definitionId := "d1", status := "running", updatedAt := "u0",
      tasks := some [("t1", wfSnap "PENDING")] } "t1" (wfSnap "PENDING") rfl rfl rfl

theorem step_deterministic {s t1 t2 : Session} {c : Chunk}
    (h1 : Step s c t1) (h2 : Step s c t2) : t1 = t2 := by
  cases h1 <;> cases h2 <;> simp_all [plainBody]

theorem steps_deterministic {s t1 t2 : Session} {cs : List Chunk}
    (h1 : Steps s cs t1) (h2 : Steps s cs t2) : t1 = t2 := by
  induction h1 generalizing t2 with
  | nil => cases h2; rfl
  | cons hstep _ ih =>
      cases h2 with
      | cons hstep' hrest' =>
          obtain rfl := step_deterministic hstep hstep'
          exact ih hrest'

theorem step_applyChunk_plain (s : Session) (c : Chunk)
    (ht : terminalStatus s.status = false) (hp : plainBody c.body = true) :
    Step s c (applyChunk s c) := by
  by_cases hf : c.env.isFinal = true
  · rw [applyChunk_plain_eq s c ht hp, if_pos hf]
    exact Step.payloadFinal s c ht hp hf
  · have hf' : c.env.isFinal = false := by simpa using hf
    rw [applyChunk_plain_eq s c ht hp, if_neg hf]
    exact Step.payloadMid s c ht hp hf'

theorem step_applyChunk (s : Session) (c : Chunk) : Step s c (applyChunk s c) := by
  by_cases ht : terminalStatus s.status = true
  · rw [show applyChunk s c = s from by unfold applyChunk; rw [ht]; rfl]
    exact Step.terminal s c ht
  · have ht' : terminalStatus s.status = false := by simpa using ht
    cases hb : c.body <;>
      first
        | exact step_applyChunk_plain s c ht' (by rw [hb]; rfl)
        | (rw [applyChunk_error_eq s c _ ht' hb]
           exact Step.streamErr s c _ ht' hb)
        | (rw [applyChunk_finalResponse_eq s c _ _ ht' hb]
           exact Step.finalResp s c _ _ ht' hb)

theorem steps_applyStream (cs : List Chunk) : ∀ s : Session, Steps s cs (applyStream s cs) := by
  induction cs with
  | nil => intro s; exact Steps.nil s
  | cons c rest ih => intro s; exact Steps.cons (step_applyChunk s c) (ih (applyChunk s c))

/-- C9: the reducer is deterministic — the transition rules assign every
`(priorState, chunk)` pair exactly one successor, so two applications of the
same chunk sequence to fresh sessions reach the same aggregate, and that
aggregate is the one computed by the functional reducer `applyStream`
(mutation-freedom is intrinsic to the functional embedding: every transition
constructs a new `Session` value from the old one). -/
theorem c9_reducer_deterministic (cs : List Chunk) (t1 t2 : Session)
    (h1 : Steps freshSession cs t1) (h2 : Steps freshSession cs t2) :
    t1 = t2 ∧ t1 = applyStream freshSession cs :=
  ⟨steps_deterministic h1 h2,
   steps_deterministic h1 (steps_applyStream cs freshSession)⟩

/-- Witness for C9: two independently built derivations for the concrete
stream `[TEXT_DELTA "Hello"]` reach the same aggregate, whose buffer is
`"Hello"`. -/
theorem c9_reducer_deterministic_witness :
    (applyStream freshSession [chunkHello]).buffer = "Hello" := by
  have h := c9_reducer_deterministic [chunkHello]
    (applyStream freshSession [chunkHello])
    (effect freshSession (ChunkBody.textDelta "Hello"))
    (steps_applyStream [chunkHello] freshSession)
    (Steps.cons (Step.payloadMid freshSession chunkHello rfl rfl rfl) (Steps.nil _))
  rw [h.1]
  rfl

theorem composer_streaming_invariant {st : ComposerState} (h : ComposerReachable st) :
    st.sessionStatus = SessionStatus.streaming → st.isStreaming = true := by
  induction h with
  | init => intro hc; exact absurd hc (by simp [composerInit])
  | step e _ ih =>
      rename_i stPrev _
      cases e with
      | submit =>
          by_cases hb : stPrev.isStreaming
          · simp [composerStep, hb]
          · simp [composerStep, hb]
      | streamEnd outcome =>
          by_cases hc : stPrev.sessionStatus = SessionStatus.streaming ∧
              terminalStatus outcome = true
          · intro habs
            rw [show composerStep stPrev (ComposerEvent.streamEnd outcome) =
                { isStreaming := false, sessionStatus := outcome } from by
              simp [composerStep, hc]] at habs
            obtain ⟨-, hterm⟩ := hc
            rw [show ({ isStreaming := false, sessionStatus := outcome } :
                ComposerState).sessionStatus = outcome from rfl] at habs
            rw [habs] at hterm
            exact absurd hterm (by simp [terminalStatus])
          · simpa [composerStep, hc] using ih
      | resetIdle =>
          by_cases hb : terminalStatus stPrev.sessionStatus = true
          · intro habs
            rw [show composerStep stPrev ComposerEvent.resetIdle =
                { stPrev with sessionStatus := SessionStatus.idle } from by
              simp [composerStep, hb]] at habs
            exact absurd habs (by simp)
          · have hb' : terminalStatus stPrev.sessionStatus = false := by simpa using hb
            simpa [composerStep, hb'] using ih

/-- C8: in every reachable composer state the single-action constraint holds —
while the active session's status is `streaming` the composer refuses a new
submission (its submit path is disabled by the `isStreaming` flag), so a
second stream cannot start before the current one reaches a terminal
state. -/
theorem c8_single_action (st : ComposerState) (h : ComposerReachable st)
    (hs : st.sessionStatus = SessionStatus.streaming) :
    composerStep st ComposerEvent.submit = st := by
  have hb := composer_streaming_invariant h hs
  simp [composerStep, hb]

/-- Witness for C8: right after a first submission the state is streaming and
a second submission is refused. -/
theorem c8_single_action_witness :
    composerStep (composerStep composerInit ComposerEvent.submit)
        ComposerEvent.submit =
      composerStep composerInit ComposerEvent.submit :=
  c8_single_action _ (ComposerReachable.step ComposerEvent.submit
    ComposerReachable.init) rfl

/-- C4 counterexample: the `AgentOSResponse` union has no member whose fixed
discriminant is UI_COMMAND (nor ERROR), so the protocol is not a closed
tagged union with exactly one variant per enumerated type value. -/
theorem c4_counterexample :
    ¬ ∃ v : ResponseVariant, fixedDiscriminant v = some AgentOSChunkType.UI_COMMAND := by
  decide

/-- C4 (amended): ten of the twelve enumerated type values — all but
UI_COMMAND and ERROR — each have exactly one `AgentOSResponse` union member
discriminated by that value, and the twelve enumerated wire strings are
pairwise distinct verbatim discriminants. -/
theorem c4_discriminated_union (t : AgentOSChunkType)
    (h1 : t ≠ AgentOSChunkType.UI_COMMAND) (h2 : t ≠ AgentOSChunkType.ERROR) :
    (∃ v : ResponseVariant, fixedDiscriminant v = some t ∧
        ∀ w : ResponseVariant, fixedDiscriminant w = some t → w = v) ∧
      Function.Injective wireString := by
  refine ⟨?_, by decide⟩
  cases t <;> first
    | exact absurd rfl h1
    | exact absurd rfl h2
    | decide

/-- Witness for C4 at TEXT_DELTA: a unique union member carries that
discriminant. -/
theorem c4_discriminated_union_witness :
    (∃ v : ResponseVariant,
      fixedDiscriminant v = some AgentOSChunkType.TEXT_DELTA ∧
        ∀ w : ResponseVariant,
          fixedDiscriminant w = some AgentOSChunkType.TEXT_DELTA → w = v) ∧
      Function.Injective wireString :=
  c4_discriminated_union AgentOSChunkType.TEXT_DELTA (by decide) (by decide)

/-- C10: every ingestion-log entry the accumulator appends carries one of the
three closed `status` values `success`, `partial`, `failed` — in the
embedding the status type has exactly these three inhabitants, so any entry
reachable through `applyStream` satisfies the invariant. -/
theorem c10_ingestion_status_closed (cs : List Chunk) (entry : RagIngestionPayload)
    (_hmem : entry ∈ (applyStream freshSession cs).ingestionLog) :
    (entry.status = IngestStatus.success ∨ entry.status = IngestStatus.partialStatus ∨
      entry.status = IngestStatus.failed) ∧
    (ingestStatusWire entry.status = "success" ∨
      ingestStatusWire entry.status = "partial" ∨
      ingestStatusWire entry.status = "failed") := by
  cases hst : entry.status <;> simp [ingestStatusWire]

/-- Witness for C10: a concrete ingestion chunk appends an entry whose status
is among the three closed values. -/
theorem c10_ingestion_status_closed_witness :
    (ingPayload.status = IngestStatus.success ∨
      ingPayload.status = IngestStatus.partialStatus ∨
      ingPayload.status = IngestStatus.failed) ∧
    (ingestStatusWire ingPayload.status = "success" ∨
      ingestStatusWire ingPayload.status = "partial" ∨
      ingestStatusWire ingPayload.status = "failed") :=
  c10_ingestion_status_closed [ingChunk] ingPayload (by decide)

end AgentOS
